import Mathlib

/-!
Verification of the cache-aside data-access layer of the `pokedex` CLI.

The TTL cache is embedded from `src/pokecache.ts` (reproduced in full in the
repository README): a `Map<string, CacheEntry<any>>` together with a sweep
interval and an optional timer handle.  The JavaScript `Map` is modelled as an
association list `List (String × CacheEntry α)`; `Map.get` returns the first
binding for a key, `Map.set` replaces the existing binding in place (or appends
a fresh one), `Map.delete` inside the reap loop is modelled by filtering the
whole list in one pass, exactly as the `for ... of entries()` loop does.
`Date.now()` timestamps and the constructor interval are integers (millisecond
counts); the opaque `NodeJS.Timeout` handle returned by `setInterval` is
modelled as a `Nat` supplied by the environment.

The cache-aside client is embedded from `src/pokeapi.ts`: each operation
computes a URL from its logical input, consults the cache, and on a miss calls
`fetch` (modelled as an oracle `String → Response α` supplied by the
environment), throws on a non-ok response, and otherwise caches the decoded
body under the URL.  The embedding additionally counts network calls so that
"performs exactly one network call" is statable.
-/

/-- One stored cache entry: `{ createdAt: number; val: T }` from
`src/pokecache.ts`. -/
structure CacheEntry (α : Type) where
  createdAt : Int
  val : α
deriving Repr, DecidableEq

/-- `Map.get` on the association-list model: the value of the first binding
whose key equals `k`, if any. -/
def mapGet {α : Type} : List (String × CacheEntry α) → String → Option (CacheEntry α)
  | [], _ => none
  | (k', e') :: rest, k => if k' = k then some e' else mapGet rest k

/-- `Map.set` on the association-list model: replace the binding for `k` in
place if one exists, otherwise append a fresh binding. -/
def mapSet {α : Type} : List (String × CacheEntry α) → String → CacheEntry α → List (String × CacheEntry α)
  | [], k, e => [(k, e)]
  | (k', e') :: rest, k, e => if k' = k then (k, e) :: rest else (k', e') :: mapSet rest k e

/-- The `Cache` class state from `src/pokecache.ts`: the private map, the
optional reap-timer handle, and the sweep interval. -/
structure Cache (α : Type) where
  cache : List (String × CacheEntry α)
  reapIntervalId : Option Nat
  interval : Int
deriving Repr, DecidableEq

/-- `add<T>(key, val)`: `this.#cache.set(key, { createdAt: Date.now(), val })`.
The current clock reading is passed explicitly as `now`. -/
def Cache.add {α : Type} (c : Cache α) (key : String) (val : α) (now : Int) : Cache α :=
  { c with cache := mapSet c.cache key { createdAt := now, val := val } }

/-- `get<T>(key)`: look the key up in the map; return `undefined` when absent,
otherwise the stored `val`.  The source performs no expiry check here and does
not consult the clock. -/
def Cache.get {α : Type} (c : Cache α) (key : String) : Option α :=
  match mapGet c.cache key with
  | none => none
  | some entry => some entry.val

/-- `get` again, but returning the cache state alongside the result, so that
the absence of mutation on the read path is statable. -/
def Cache.getS {α : Type} (c : Cache α) (key : String) : Option α × Cache α :=
  match mapGet c.cache key with
  | none => (none, c)
  | some entry => (some entry.val, c)

/-- `#reap()`: compute `cutoff = now - interval` and delete every entry with
`createdAt < cutoff`, in one pass over the whole map. -/
def Cache.reap {α : Type} (c : Cache α) (now : Int) : Cache α :=
  { c with cache := c.cache.filter (fun p => !decide (p.2.createdAt < now - c.interval)) }

/-- `#startReapLoop()`: store the handle returned by `setInterval`. -/
def Cache.startReapLoop {α : Type} (c : Cache α) (timerId : Nat) : Cache α :=
  { c with reapIntervalId := some timerId }

/-- `constructor(interval)`: store the interval unchecked over an empty map and
start the reap loop immediately.  The source performs no validation of
`interval`. -/
def Cache.new {α : Type} (interval : Int) (timerId : Nat) : Cache α :=
  Cache.startReapLoop { cache := [], reapIntervalId := none, interval := interval } timerId

/-- `stopReapLoop()`: when a timer handle is present, clear it; otherwise do
nothing. -/
def Cache.stopReapLoop {α : Type} (c : Cache α) : Cache α :=
  match c.reapIntervalId with
  | some _ => { c with reapIntervalId := none }
  | none => c

theorem mapGet_mapSet_self {α : Type} (m : List (String × CacheEntry α)) (k : String) (e : CacheEntry α) :
    mapGet (mapSet m k e) k = some e := by
  induction m with
  | nil => simp [mapSet, mapGet]
  | cons hd tl ih =>
    obtain ⟨k', e'⟩ := hd
    by_cases h : k' = k
    · simp [mapSet, mapGet, h]
    · simp [mapSet, mapGet, h, ih]

theorem mapGet_mapSet_ne {α : Type} (m : List (String × CacheEntry α)) (k k' : String) (e : CacheEntry α)
    (h : k' ≠ k) : mapGet (mapSet m k e) k' = mapGet m k' := by
  have hk : ¬ k = k' := fun hc => h hc.symm
  induction m with
  | nil => simp [mapSet, mapGet, hk]
  | cons hd tl ih =>
    obtain ⟨k₀, e₀⟩ := hd
    by_cases h₀ : k₀ = k
    · have h₀' : ¬ k₀ = k' := fun hc => hk (h₀ ▸ hc)
      simp [mapSet, mapGet, h₀, hk, h₀']
    · by_cases h₁ : k₀ = k'
      · simp [mapSet, mapGet, h₀, h₁, h]
      · simp [mapSet, mapGet, h₀, h₁, ih]

theorem mapGet_eq_none_of_not_mem {α : Type} (m : List (String × CacheEntry α)) (k : String)
    (h : k ∉ m.map Prod.fst) : mapGet m k = none := by
  induction m with
  | nil => simp [mapGet]
  | cons hd tl ih =>
    obtain ⟨k', e'⟩ := hd
    simp only [List.map_cons, List.mem_cons] at h
    push_neg at h
    have hne : ¬ k' = k := fun hc => h.1 hc.symm
    simp [mapGet, hne, ih h.2]

theorem mapGet_filter {α : Type} (m : List (String × CacheEntry α)) (p : String × CacheEntry α → Bool)
    (k : String) (h : (m.map Prod.fst).Nodup) :
    mapGet (m.filter p) k =
      match mapGet m k with
      | none => none
      | some e => if p (k, e) then some e else none := by
  induction m with
  | nil => simp [mapGet]
  | cons hd tl ih =>
    obtain ⟨k', e'⟩ := hd
    simp only [List.map_cons, List.nodup_cons] at h
    by_cases hk : k' = k
    · subst hk
      have htl : mapGet (tl.filter p) k' = none := by
        apply mapGet_eq_none_of_not_mem
        intro hmem
        exact h.1 (((List.filter_sublist tl).map Prod.fst).subset hmem)
      by_cases hp : p (k', e') = true
      · simp [List.filter, mapGet, hp]
      · simp only [Bool.not_eq_true] at hp
        simp [List.filter, mapGet, hp, htl]
    · by_cases hp : p (k', e') = true
      · simp [List.filter, mapGet, hp, hk, ih h.2]
      · simp only [Bool.not_eq_true] at hp
        simp [List.filter, mapGet, hp, hk, ih h.2]

theorem mem_keys_mapSet {α : Type} (m : List (String × CacheEntry α)) (k x : String) (e : CacheEntry α)
    (h : x ∈ (mapSet m k e).map Prod.fst) : x = k ∨ x ∈ m.map Prod.fst := by
  induction m with
  | nil => simpa [mapSet] using h
  | cons hd tl ih =>
    obtain ⟨k', e'⟩ := hd
    by_cases hk : k' = k
    · subst hk
      simpa [mapSet] using h
    · simp only [mapSet, hk, if_false, List.map_cons, List.mem_cons] at h
      rcases h with h | h
      · exact Or.inr (by simp [h])
      · rcases ih h with h | h
        · exact Or.inl h
        · exact Or.inr (by simp [h])

theorem nodupKeys_mapSet {α : Type} (m : List (String × CacheEntry α)) (k : String) (e : CacheEntry α)
    (h : (m.map Prod.fst).Nodup) : ((mapSet m k e).map Prod.fst).Nodup := by
  induction m with
  | nil => simp [mapSet]
  | cons hd tl ih =>
    obtain ⟨k', e'⟩ := hd
    simp only [List.map_cons, List.nodup_cons] at h
    by_cases hk : k' = k
    · subst hk
      simpa [mapSet, List.nodup_cons] using h
    · simp only [mapSet, hk, if_false, List.map_cons, List.nodup_cons]
      refine ⟨fun hmem => ?_, ih h.2⟩
      rcases mem_keys_mapSet tl k k' e hmem with hc | hc
      · exact hk hc
      · exact h.1 hc

theorem nodupKeys_filter {α : Type} (m : List (String × CacheEntry α)) (p : String × CacheEntry α → Bool)
    (h : (m.map Prod.fst).Nodup) : (((m.filter p).map Prod.fst)).Nodup :=
  h.sublist ((List.filter_sublist m).map Prod.fst)

/-- An HTTP response as the fetchers observe it: `ok`, `status`, and the
decoded JSON body (`response.json()` cast to the expected record type). -/
structure Response (α : Type) where
  ok : Bool
  status : Nat
  body : α
deriving Repr, DecidableEq

/-- The error thrown by a fetcher on a non-ok response:
`new Error("HTTP error! status: " ++ status)`, modelled structurally so that
the carried status code is visible. -/
inductive FetchError where
  | httpError (status : Nat)
deriving Repr, DecidableEq

/-- Result of one fetcher call: the returned value or thrown error, the cache
state after the call, and how many network requests were issued. -/
structure FetchOutcome (α : Type) where
  result : Except FetchError α
  cache : Cache α
  networkCalls : Nat
deriving Repr

/-- `PokeAPI.baseURL` from `src/pokeapi.ts`. -/
def baseURL : String := "https://pokeapi.co/api/v2"

/-- The JavaScript `pageURL || default` idiom on an optional string: the
default is used when the argument is `undefined` or the empty string (both
falsy). -/
def jsOrElse (pageURL : Option String) (dflt : String) : String :=
  match pageURL with
  | none => dflt
  | some s => if s = "" then dflt else s

/-- URL used by `fetchLocations`:
`pageURL || baseURL/location-area?offset=0&limit=20`. -/
def locationsURL (pageURL : Option String) : String :=
  jsOrElse pageURL (baseURL ++ "/location-area?offset=0&limit=20")

/-- URL used by `fetchLocation`: `baseURL/location-area/name`. -/
def locationURL (name : String) : String :=
  baseURL ++ "/location-area/" ++ name

/-- URL used by `fetchPokemon`: `baseURL/pokemon/name`. -/
def pokemonURL (name : String) : String :=
  baseURL ++ "/pokemon/" ++ name

/-- The body shared verbatim by `fetchLocations`, `fetchLocation`, and
`fetchPokemon` in `src/pokeapi.ts`, parameterized by the already-computed URL:
check the cache under the URL; on a hit return the cached value with no
network call; on a miss call `fetch(url)`, throw `httpError status` when
`!response.ok`, otherwise cache the decoded body under the URL and return
it. -/
def cacheAsideFetch {α : Type} (c : Cache α) (net : String → Response α) (url : String)
    (now : Int) : FetchOutcome α :=
  match c.get url with
  | some cached => { result := Except.ok cached, cache := c, networkCalls := 0 }
  | none =>
    let response := net url
    if !response.ok then
      { result := Except.error (FetchError.httpError response.status), cache := c,
        networkCalls := 1 }
    else
      { result := Except.ok response.body, cache := c.add url response.body now,
        networkCalls := 1 }

/-- `PokeAPI.fetchLocations(pageURL?)`. -/
def fetchLocations {α : Type} (c : Cache α) (net : String → Response α)
    (pageURL : Option String) (now : Int) : FetchOutcome α :=
  cacheAsideFetch c net (locationsURL pageURL) now

/-- `PokeAPI.fetchLocation(locationName)`. -/
def fetchLocation {α : Type} (c : Cache α) (net : String → Response α) (name : String)
    (now : Int) : FetchOutcome α :=
  cacheAsideFetch c net (locationURL name) now

/-- `PokeAPI.fetchPokemon(pokemonName)`. -/
def fetchPokemon {α : Type} (c : Cache α) (net : String → Response α) (name : String)
    (now : Int) : FetchOutcome α :=
  cacheAsideFetch c net (pokemonURL name) now

theorem cacheAsideFetch_hit {α : Type} (c : Cache α) (net : String → Response α) (url : String)
    (now : Int) (v : α) (hhit : c.get url = some v) :
    cacheAsideFetch c net url now = { result := Except.ok v, cache := c, networkCalls := 0 } := by
  simp [cacheAsideFetch, hhit]

theorem cacheAsideFetch_miss_fail {α : Type} (c : Cache α) (net : String → Response α)
    (url : String) (now : Int) (hmiss : c.get url = none) (hbad : (net url).ok = false) :
    cacheAsideFetch c net url now =
      { result := Except.error (FetchError.httpError (net url).status), cache := c,
        networkCalls := 1 } := by
  simp [cacheAsideFetch, hmiss, hbad]

theorem cacheAsideFetch_miss_ok {α : Type} (c : Cache α) (net : String → Response α)
    (url : String) (now : Int) (hmiss : c.get url = none) (hok : (net url).ok = true) :
    cacheAsideFetch c net url now =
      { result := Except.ok (net url).body, cache := c.add url (net url).body now,
        networkCalls := 1 } := by
  simp [cacheAsideFetch, hmiss, hok]

theorem cacheAsideFetch_calls_of_miss {α : Type} (c : Cache α) (net : String → Response α)
    (url : String) (now : Int) (hmiss : c.get url = none) :
    (cacheAsideFetch c net url now).networkCalls = 1 := by
  cases hok : (net url).ok <;> simp [cacheAsideFetch, hmiss, hok]

theorem stopReapLoop_reapIntervalId {α : Type} (c : Cache α) :
    c.stopReapLoop.reapIntervalId = none := by
  obtain ⟨m, tid, T⟩ := c
  cases tid <;> simp [Cache.stopReapLoop]

theorem stopReapLoop_cache {α : Type} (c : Cache α) : c.stopReapLoop.cache = c.cache := by
  obtain ⟨m, tid, T⟩ := c
  cases tid <;> simp [Cache.stopReapLoop]

theorem stopReapLoop_interval {α : Type} (c : Cache α) : c.stopReapLoop.interval = c.interval := by
  obtain ⟨m, tid, T⟩ := c
  cases tid <;> simp [Cache.stopReapLoop]

theorem stopReapLoop_stopReapLoop {α : Type} (c : Cache α) :
    c.stopReapLoop.stopReapLoop = c.stopReapLoop := by
  obtain ⟨m, tid, T⟩ := c
  cases tid <;> simp [Cache.stopReapLoop]

/-- C4: for all keys `k` and values `v`, `add(k, v)` (the source's `put`)
followed immediately by `get(k)` returns `v`; `add` is a total state
transformer with no capacity limit, so it always succeeds and returns
nothing. -/
theorem C4_add_then_get {α : Type} (c : Cache α) (k : String) (v : α) (now : Int) :
    (c.add k v now).get k = some v := by
  simp [Cache.add, Cache.get, mapGet_mapSet_self]

/-- C7: `stopReapLoop` is idempotent: it is total (raises no error, also on an
already-stopped cache), after one call the timer handle is cleared, repeating
it any number of times changes nothing further, and it leaves the entries and
the interval untouched. -/
theorem C7_stop_idempotent {α : Type} (c : Cache α) :
    c.stopReapLoop.reapIntervalId = none ∧
    c.stopReapLoop.stopReapLoop = c.stopReapLoop ∧
    (∀ n : Nat, Cache.stopReapLoop^[n] c.stopReapLoop = c.stopReapLoop) ∧
    c.stopReapLoop.cache = c.cache ∧
    c.stopReapLoop.interval = c.interval := by
  refine ⟨stopReapLoop_reapIntervalId c, stopReapLoop_stopReapLoop c, ?_,
    stopReapLoop_cache c, stopReapLoop_interval c⟩
  intro n
  induction n with
  | zero => rfl
  | succ n ih => rw [Function.iterate_succ_apply, stopReapLoop_stopReapLoop, ih]

/-- C10: the read path is strictly read-only: `get`, run as a state
transformer, returns the same answer as the pure `get` and leaves the cache
state (entries, values, timestamps, timer handle, interval) exactly as it
was, for present, absent, and expired keys alike. -/
theorem C10_get_readonly {α : Type} (c : Cache α) (k : String) :
    (c.getS k).2 = c ∧ (c.getS k).1 = c.get k := by
  unfold Cache.getS Cache.get
  cases mapGet c.cache k <;> simp

/-- C9 counterexample: the constructor applied to the zero interval does not
reject it — it returns a fully constructed cache: empty map, the raw interval
`0` stored unchecked, and the background sweep already started. -/
theorem C9_counterexample_zero_ttl_accepted :
    (Cache.new 0 1 : Cache String) =
      { cache := [], reapIntervalId := some 1, interval := 0 } := rfl

/-- C9 amended: the constructor performs no validation at all: for every
interval, positive, zero, or negative, it constructs an empty cache, stores
the interval unchecked, and starts the background sweep immediately. -/
theorem C9_amended_constructor_unchecked {α : Type} (T : Int) (timerId : Nat) :
    (Cache.new T timerId : Cache α).cache = [] ∧
    (Cache.new T timerId : Cache α).interval = T ∧
    (Cache.new T timerId : Cache α).reapIntervalId = some timerId :=
  ⟨rfl, rfl, rfl⟩

/-- C1 counterexample: with `ttl = 100`, `add("key1", "value1")` at `t0 = 0`,
and no sweep run, the read at any later wall-clock instant — in particular at
`150 > t0 + ttl` — still returns `some "value1"` rather than absent: `get`
takes no clock reading and performs no expiry check, so its answer cannot
depend on the read time.  The claim requires absent at `150` even without a
sweep; the code returns the value. -/
theorem C1_counterexample_stale_read :
    ((Cache.new 100 1 : Cache String).add "key1" "value1" 0).get "key1" = some "value1" ∧
    ((0 : Int) + 100 < 150) := by
  constructor
  · simp [Cache.new, Cache.startReapLoop, Cache.add, Cache.get, mapSet, mapGet]
  · decide

/-- C1 amended: after `add(k, v)` at `t0` with ttl `T`, `get(k)` returns
absent only once the sweep has physically removed the entry, which a `reap`
run at any time `tr` with `t0 < tr - T` does; until such a sweep runs, `get`
still returns `v` — the read path performs no expiry check of its own, so
logical expiry is enforced solely by the sweep. -/
theorem C1_amended_expiry_needs_sweep {α : Type} (k : String) (v : α) (t0 T tr : Int)
    (timerId : Nat) (h : t0 < tr - T) :
    ((Cache.new T timerId : Cache α).add k v t0).get k = some v ∧
    (((Cache.new T timerId : Cache α).add k v t0).reap tr).get k = none := by
  constructor
  · simp [Cache.new, Cache.startReapLoop, Cache.add, Cache.get, mapSet, mapGet]
  · simp [Cache.new, Cache.startReapLoop, Cache.add, Cache.reap, Cache.get, mapSet, mapGet,
      List.filter, h]

/-- C1 amended, witness: ttl `100`, entry added at `0`, sweep at `150`. -/
theorem C1_amended_witness :
    ((Cache.new 100 1 : Cache String).add "k" "v" 0).get "k" = some "v" ∧
    (((Cache.new 100 1 : Cache String).add "k" "v" 0).reap 150).get "k" = none :=
  C1_amended_expiry_needs_sweep "k" "v" 0 100 150 1 (by decide)

/-- C5: a `reap` run at wall-clock `now` removes exactly the entries whose
`createdAt < now - interval`, in one filtering pass: for every key the entry
physically stored afterwards is the old one when it is at or above the
cutoff, and no entry otherwise; consequently an expired entry is physically
gone after any reap run strictly later than `createdAt + interval`, in
particular one full sweep interval past expiry
(`createdAt + 2 * interval ≤ now` with a positive interval). -/
theorem C5_reap_removes_exactly_expired {α : Type} (c : Cache α) (now : Int) (k : String)
    (h : (c.cache.map Prod.fst).Nodup) :
    (mapGet (c.reap now).cache k =
      (match mapGet c.cache k with
       | none => none
       | some e => if e.createdAt < now - c.interval then none else some e)) ∧
    (∀ e, mapGet c.cache k = some e → e.createdAt < now - c.interval →
      mapGet (c.reap now).cache k = none) ∧
    (∀ e, mapGet c.cache k = some e → 0 < c.interval →
      e.createdAt + 2 * c.interval ≤ now → mapGet (c.reap now).cache k = none) := by
  have hchar := mapGet_filter c.cache
    (fun p => !decide (p.2.createdAt < now - c.interval)) k h
  have hmain : mapGet (c.reap now).cache k =
      (match mapGet c.cache k with
       | none => none
       | some e => if e.createdAt < now - c.interval then none else some e) := by
    show mapGet (c.cache.filter _) k = _
    rw [hchar]
    cases hm : mapGet c.cache k with
    | none => rfl
    | some e =>
      by_cases hlt : e.createdAt < now - c.interval
      · simp [hlt]
      · simp [hlt]
  refine ⟨hmain, ?_, ?_⟩
  · intro e he hlt
    rw [hmain, he]
    simp [hlt]
  · intro e he hpos harith
    have hlt : e.createdAt < now - c.interval := by omega
    rw [hmain, he]
    simp [hlt]

/-- C5 witness: ttl `100`, entry added at `0`, reap at `250` (one full sweep
interval past the expiry instant `100`): the entry is physically gone. -/
theorem C5_witness :
    mapGet ((((Cache.new 100 1 : Cache String).add "a" "x" 0).reap 250).cache) "a" = none := by
  have h5 := C5_reap_removes_exactly_expired ((Cache.new 100 1 : Cache String).add "a" "x" 0)
    250 "a" (by simp [Cache.new, Cache.startReapLoop, Cache.add, mapSet])
  exact h5.2.2 { createdAt := 0, val := "x" }
    (by simp [Cache.new, Cache.startReapLoop, Cache.add, mapSet, mapGet]) (by decide) (by decide)

/-- C6: inserting a key that already has an entry replaces that entry in
place with the new value and the fresh timestamp `t1`, keeping at most one
entry per key; hence a reap run at any `tr` that is not yet past the *new*
timestamp's expiry (`¬ t1 < tr - interval`, e.g. `tr = t0 + T + ε` after a
re-insert at `t1 = t0 + T/2` with `ε ≤ T/2`) leaves the entry in place and
`get(k)` returns `v2`, not absent. -/
theorem C6_overwrite_resets_freshness {α : Type} (c : Cache α) (k : String) (v1 v2 : α)
    (t0 t1 tr : Int) (hnd : (c.cache.map Prod.fst).Nodup)
    (hfresh : ¬ t1 < tr - c.interval) :
    ((c.add k v1 t0).add k v2 t1).get k = some v2 ∧
    ((((c.add k v1 t0).add k v2 t1).cache.map Prod.fst).count k ≤ 1) ∧
    ((((c.add k v1 t0).add k v2 t1).reap tr).get k = some v2) := by
  have hkeys : (((c.add k v1 t0).add k v2 t1).cache.map Prod.fst).Nodup := by
    simp only [Cache.add]
    exact nodupKeys_mapSet _ k _ (nodupKeys_mapSet _ k _ hnd)
  have hself : mapGet ((c.add k v1 t0).add k v2 t1).cache k =
      some { createdAt := t1, val := v2 } := by
    simp [Cache.add, mapGet_mapSet_self]
  have hchar := mapGet_filter ((c.add k v1 t0).add k v2 t1).cache
    (fun p => !decide (p.2.createdAt < tr - ((c.add k v1 t0).add k v2 t1).interval)) k hkeys
  refine ⟨?_, ?_, ?_⟩
  · simp [Cache.get, hself]
  · exact List.nodup_iff_count_le_one.mp hkeys k
  · have hint : ((c.add k v1 t0).add k v2 t1).interval = c.interval := rfl
    show Cache.get { (c.add k v1 t0).add k v2 t1 with
      cache := ((c.add k v1 t0).add k v2 t1).cache.filter _ } k = some v2
    rw [Cache.get]
    rw [hchar, hself]
    simp [hint, hfresh]

/-- C6 witness: ttl `100`, `add("k","a")` at `0`, `add("k","b")` at `50`,
reap at `101` (one past the original expiry instant): `get` returns `"b"`. -/
theorem C6_witness :
    (((Cache.new 100 1 : Cache String).add "k" "a" 0).add "k" "b" 50).get "k" = some "b" ∧
    (((((Cache.new 100 1 : Cache String).add "k" "a" 0).add "k" "b" 50).cache.map
        Prod.fst).count "k" ≤ 1) ∧
    (((((Cache.new 100 1 : Cache String).add "k" "a" 0).add "k" "b" 50).reap 101).get "k" =
      some "b") :=
  C6_overwrite_resets_freshness (Cache.new 100 1) "k" "a" "b" 0 50 101
    (by simp [Cache.new, Cache.startReapLoop]) (by decide)

/-- C2: a by-name fetch (`fetchPokemon`, `fetchLocation`) that reaches the
network (cache miss) and receives a non-ok response fails with the error
carrying the response's status code, writes no cache entry (the cache state
after the call is exactly the cache state before), and therefore a subsequent
call for the same name misses again and performs a network call again. -/
theorem C2_failure_not_cached {α : Type} (c : Cache α) (net net2 netL netL2 : String → Response α)
    (name nameL : String) (now now2 : Int)
    (hmiss : c.get (pokemonURL name) = none) (hbad : (net (pokemonURL name)).ok = false)
    (hmissL : c.get (locationURL nameL) = none) (hbadL : (netL (locationURL nameL)).ok = false) :
    (fetchPokemon c net name now).result =
      Except.error (FetchError.httpError (net (pokemonURL name)).status) ∧
    (fetchPokemon c net name now).cache = c ∧
    (fetchPokemon c net name now).networkCalls = 1 ∧
    (fetchPokemon (fetchPokemon c net name now).cache net2 name now2).networkCalls = 1 ∧
    (fetchLocation c netL nameL now).result =
      Except.error (FetchError.httpError (netL (locationURL nameL)).status) ∧
    (fetchLocation c netL nameL now).cache = c ∧
    (fetchLocation c netL nameL now).networkCalls = 1 ∧
    (fetchLocation (fetchLocation c netL nameL now).cache netL2 nameL now2).networkCalls = 1 := by
  have hp := cacheAsideFetch_miss_fail c net (pokemonURL name) now hmiss hbad
  have hl := cacheAsideFetch_miss_fail c netL (locationURL nameL) now hmissL hbadL
  refine ⟨?_, ?_, ?_, ?_, ?_, ?_, ?_, ?_⟩
  · rw [fetchPokemon, hp]
  · rw [fetchPokemon, hp]
  · rw [fetchPokemon, hp]
  · simp only [fetchPokemon]
    rw [hp]
    exact cacheAsideFetch_calls_of_miss c net2 (pokemonURL name) now2 hmiss
  · rw [fetchLocation, hl]
  · rw [fetchLocation, hl]
  · rw [fetchLocation, hl]
  · simp only [fetchLocation]
    rw [hl]
    exact cacheAsideFetch_calls_of_miss c netL2 (locationURL nameL) now2 hmissL

/-- C2 witness: empty cache, remote answering 404 on every URL and then 200
on the retry: both attempts issue a network call, the first call's cache is
still the empty one, and the error carries 404. -/
theorem C2_witness :
    (fetchPokemon (Cache.new 300000 1 : Cache String)
      (fun _ => { ok := false, status := 404, body := "x" }) "pikachu" 0).result =
      Except.error (FetchError.httpError 404) ∧
    (fetchPokemon (Cache.new 300000 1 : Cache String)
      (fun _ => { ok := false, status := 404, body := "x" }) "pikachu" 0).cache =
      Cache.new 300000 1 ∧
    (fetchPokemon (Cache.new 300000 1 : Cache String)
      (fun _ => { ok := false, status := 404, body := "x" }) "pikachu" 0).networkCalls = 1 ∧
    (fetchPokemon (fetchPokemon (Cache.new 300000 1 : Cache String)
        (fun _ => { ok := false, status := 404, body := "x" }) "pikachu" 0).cache
      (fun _ => { ok := true, status := 200, body := "y" }) "pikachu" 5).networkCalls = 1 ∧
    (fetchLocation (Cache.new 300000 1 : Cache String)
      (fun _ => { ok := false, status := 404, body := "x" }) "canalave-city-area" 0).result =
      Except.error (FetchError.httpError 404) ∧
    (fetchLocation (Cache.new 300000 1 : Cache String)
      (fun _ => { ok := false, status := 404, body := "x" }) "canalave-city-area" 0).cache =
      Cache.new 300000 1 ∧
    (fetchLocation (Cache.new 300000 1 : Cache String)
      (fun _ => { ok := false, status := 404, body := "x" }) "canalave-city-area" 0).networkCalls = 1 ∧
    (fetchLocation (fetchLocation (Cache.new 300000 1 : Cache String)
        (fun _ => { ok := false, status := 404, body := "x" }) "canalave-city-area" 0).cache
      (fun _ => { ok := true, status := 200, body := "y" }) "canalave-city-area" 5).networkCalls = 1 :=
  C2_failure_not_cached (Cache.new 300000 1)
    (fun _ => { ok := false, status := 404, body := "x" })
    (fun _ => { ok := true, status := 200, body := "y" })
    (fun _ => { ok := false, status := 404, body := "x" })
    (fun _ => { ok := true, status := 200, body := "y" })
    "pikachu" "canalave-city-area" 0 5 rfl rfl rfl rfl

/-- C3: on a first by-name fetch that misses, exactly one network call is
made, the decoded body is returned and stored in the cache under the request
URL; a second call for the same name makes zero network calls and returns
the identical decoded value, also when a sweep runs in between at any
instant `tr` still within the TTL of the stored entry
(`¬ now < tr - interval`). -/
theorem C3_miss_then_hit {α : Type} (c : Cache α) (net net2 net3 : String → Response α)
    (name : String) (now now2 now3 tr : Int)
    (hnd : (c.cache.map Prod.fst).Nodup)
    (hmiss : c.get (pokemonURL name) = none)
    (hok : (net (pokemonURL name)).ok = true)
    (hwithin : ¬ now < tr - c.interval) :
    (fetchPokemon c net name now).networkCalls = 1 ∧
    (fetchPokemon c net name now).result = Except.ok (net (pokemonURL name)).body ∧
    (fetchPokemon c net name now).cache.get (pokemonURL name) =
      some (net (pokemonURL name)).body ∧
    (fetchPokemon (fetchPokemon c net name now).cache net2 name now2).networkCalls = 0 ∧
    (fetchPokemon (fetchPokemon c net name now).cache net2 name now2).result =
      Except.ok (net (pokemonURL name)).body ∧
    (fetchPokemon ((fetchPokemon c net name now).cache.reap tr) net3 name now3).networkCalls = 0 ∧
    (fetchPokemon ((fetchPokemon c net name now).cache.reap tr) net3 name now3).result =
      Except.ok (net (pokemonURL name)).body := by
  have h1 := cacheAsideFetch_miss_ok c net (pokemonURL name) now hmiss hok
  have hstored : (c.add (pokemonURL name) (net (pokemonURL name)).body now).get
      (pokemonURL name) = some (net (pokemonURL name)).body := by
    simp [Cache.add, Cache.get, mapGet_mapSet_self]
  have hkeys : ((c.add (pokemonURL name) (net (pokemonURL name)).body now).cache.map
      Prod.fst).Nodup := by
    simp only [Cache.add]
    exact nodupKeys_mapSet _ _ _ hnd
  have hreapGet : ((c.add (pokemonURL name) (net (pokemonURL name)).body now).reap tr).get
      (pokemonURL name) = some (net (pokemonURL name)).body := by
    have hchar := mapGet_filter
      (c.add (pokemonURL name) (net (pokemonURL name)).body now).cache
      (fun p => !decide (p.2.createdAt <
        tr - (c.add (pokemonURL name) (net (pokemonURL name)).body now).interval))
      (pokemonURL name) hkeys
    have hself : mapGet (c.add (pokemonURL name) (net (pokemonURL name)).body now).cache
        (pokemonURL name) = some { createdAt := now, val := (net (pokemonURL name)).body } := by
      simp [Cache.add, mapGet_mapSet_self]
    show Cache.get { c.add (pokemonURL name) (net (pokemonURL name)).body now with
      cache := (c.add (pokemonURL name) (net (pokemonURL name)).body now).cache.filter _ }
      (pokemonURL name) = _
    rw [Cache.get]
    rw [hchar, hself]
    have hint : (c.add (pokemonURL name) (net (pokemonURL name)).body now).interval =
      c.interval := rfl
    simp [hint, hwithin]
  refine ⟨?_, ?_, ?_, ?_, ?_, ?_, ?_⟩
  · rw [fetchPokemon, h1]
  · rw [fetchPokemon, h1]
  · rw [fetchPokemon, h1]
    exact hstored
  · simp only [fetchPokemon]
    rw [h1]
    rw [cacheAsideFetch_hit _ net2 _ now2 _ hstored]
  · simp only [fetchPokemon]
    rw [h1]
    rw [cacheAsideFetch_hit _ net2 _ now2 _ hstored]
  · simp only [fetchPokemon]
    rw [h1]
    rw [cacheAsideFetch_hit _ net3 _ now3 _ hreapGet]
  · simp only [fetchPokemon]
    rw [h1]
    rw [cacheAsideFetch_hit _ net3 _ now3 _ hreapGet]

/-- C3 witness: 5-minute ttl, miss at `0`, sweep at `200000` (within the
TTL), second read at `200001`: one network call then zero, identical value
both times, entry stored under the pokemon URL. -/
theorem C3_witness :
    (fetchPokemon (Cache.new 300000 1 : Cache String)
      (fun _ => { ok := true, status := 200, body := "pikachu-record" }) "pikachu" 0).networkCalls = 1 ∧
    (fetchPokemon (Cache.new 300000 1 : Cache String)
      (fun _ => { ok := true, status := 200, body := "pikachu-record" }) "pikachu" 0).result =
      Except.ok "pikachu-record" ∧
    (fetchPokemon (Cache.new 300000 1 : Cache String)
      (fun _ => { ok := true, status := 200, body := "pikachu-record" }) "pikachu" 0).cache.get
      (pokemonURL "pikachu") = some "pikachu-record" ∧
    (fetchPokemon (fetchPokemon (Cache.new 300000 1 : Cache String)
        (fun _ => { ok := true, status := 200, body := "pikachu-record" }) "pikachu" 0).cache
      (fun _ => { ok := true, status := 200, body := "other" }) "pikachu" 100000).networkCalls = 0 ∧
    (fetchPokemon (fetchPokemon (Cache.new 300000 1 : Cache String)
        (fun _ => { ok := true, status := 200, body := "pikachu-record" }) "pikachu" 0).cache
      (fun _ => { ok := true, status := 200, body := "other" }) "pikachu" 100000).result =
      Except.ok "pikachu-record" ∧
    (fetchPokemon ((fetchPokemon (Cache.new 300000 1 : Cache String)
        (fun _ => { ok := true, status := 200, body := "pikachu-record" }) "pikachu" 0).cache.reap
        200000)
      (fun _ => { ok := true, status := 200, body := "other" }) "pikachu" 200001).networkCalls = 0 ∧
    (fetchPokemon ((fetchPokemon (Cache.new 300000 1 : Cache String)
        (fun _ => { ok := true, status := 200, body := "pikachu-record" }) "pikachu" 0).cache.reap
        200000)
      (fun _ => { ok := true, status := 200, body := "other" }) "pikachu" 200001).result =
      Except.ok "pikachu-record" :=
  C3_miss_then_hit (Cache.new 300000 1)
    (fun _ => { ok := true, status := 200, body := "pikachu-record" })
    (fun _ => { ok := true, status := 200, body := "other" })
    (fun _ => { ok := true, status := 200, body := "other" })
    "pikachu" 0 100000 200001 200000
    (by simp [Cache.new, Cache.startReapLoop]) rfl rfl (by decide)

/-- C8 counterexample: the list fetch called with the explicit page URL `""`
does not use that URL: the JavaScript `pageURL || default` treats the empty
string as falsy, so the canonical first-page URL is used instead. -/
theorem C8_counterexample_empty_page_url :
    locationsURL (some "") = baseURL ++ "/location-area?offset=0&limit=20" ∧
    locationsURL (some "") ≠ "" := by
  constructor
  · simp [locationsURL, jsOrElse]
  · simp [locationsURL, jsOrElse, baseURL]

/-- C8 amended: every request URL (and hence cache key, since each fetcher
passes its computed URL to the shared cache-aside body) is computed
deterministically from the operation's logical input: the list fetch with no
argument — or with an empty-string argument, which the `||` fallback treats as
absent — uses the canonical first-page URL with `offset=0&limit=20`; the list
fetch with an explicit non-empty page URL uses exactly that URL; each by-name
fetch substitutes the name into its operation's fixed path template. -/
theorem C8_amended_url_determinism {α : Type} (name u : String) (h : u ≠ "") :
    locationsURL none = baseURL ++ "/location-area?offset=0&limit=20" ∧
    locationsURL (some u) = u ∧
    pokemonURL name = baseURL ++ "/pokemon/" ++ name ∧
    locationURL name = baseURL ++ "/location-area/" ++ name ∧
    (∀ (c : Cache α) (net : String → Response α) (now : Int) (pageURL : Option String),
      fetchLocations c net pageURL now = cacheAsideFetch c net (locationsURL pageURL) now) ∧
    (∀ (c : Cache α) (net : String → Response α) (now : Int),
      fetchLocation c net name now = cacheAsideFetch c net (locationURL name) now) ∧
    (∀ (c : Cache α) (net : String → Response α) (now : Int),
      fetchPokemon c net name now = cacheAsideFetch c net (pokemonURL name) now) := by
  refine ⟨rfl, ?_, rfl, rfl, fun _ _ _ _ => rfl, fun _ _ _ => rfl, fun _ _ _ => rfl⟩
  simp [locationsURL, jsOrElse, h]

/-- C8 amended, witness at the name `"pikachu"` and the non-empty page URL
`"next-page"`. -/
theorem C8_amended_witness :
    locationsURL none = baseURL ++ "/location-area?offset=0&limit=20" ∧
    locationsURL (some "next-page") = "next-page" ∧
    pokemonURL "pikachu" = baseURL ++ "/pokemon/" ++ "pikachu" ∧
    locationURL "pikachu" = baseURL ++ "/location-area/" ++ "pikachu" ∧
    (∀ (c : Cache String) (net : String → Response String) (now : Int) (pageURL : Option String),
      fetchLocations c net pageURL now = cacheAsideFetch c net (locationsURL pageURL) now) ∧
    (∀ (c : Cache String) (net : String → Response String) (now : Int),
      fetchLocation c net "pikachu" now = cacheAsideFetch c net (locationURL "pikachu") now) ∧
    (∀ (c : Cache String) (net : String → Response String) (now : Int),
      fetchPokemon c net "pikachu" now = cacheAsideFetch c net (pokemonURL "pikachu") now) :=
  C8_amended_url_determinism "pikachu" "next-page" (by simp)
